import Mathlib

/-!
# Verification of the whimsy rune sanitizer / width engine

Shallow embedding of `src/lib/runeutil/constants.ts`, `src/lib/runeutil/rune.ts`
and the `visibleLength` / `truncate` helpers of the ANSI-aware text family.

JavaScript strings are modelled as lists of UTF-16 code units (`List Nat`,
each unit below `0x10000` in real inputs).  `Array.from` / `for..of`
iteration over a string, which groups well-formed surrogate pairs into
single code-point units, is modelled by `decode`; `String.prototype.codePointAt(0)`
by `codePointAt`.  External, host-supplied functionality (the optional
`util.stripVTControlCharacters` primitive looked up through
`globalThis.require`, and `String.prototype.normalize`) is modelled by
explicit function parameters / option fields of type `Option (List Nat → List Nat)`.
-/

/-- `WHITESPACE_CODE_POINTS` from `constants.ts` (a JS `Set`, modelled as a list). -/
def WHITESPACE_CODE_POINTS : List Nat :=
  [0x0009, 0x000A, 0x000B, 0x000C, 0x000D, 0x0020, 0x00A0, 0x1680,
   0x2000, 0x2001, 0x2002, 0x2003, 0x2004, 0x2005, 0x2006, 0x2007,
   0x2008, 0x2009, 0x200A, 0x2028, 0x2029, 0x202F, 0x205F, 0x3000]

/-- `ZERO_WIDTH_CODE_POINTS` from `constants.ts`. -/
def ZERO_WIDTH_CODE_POINTS : List Nat :=
  [0x200B, 0x200C, 0x200D, 0xFEFF]

/-- `DIRECTIONAL_CODE_POINTS` from `constants.ts`. -/
def DIRECTIONAL_CODE_POINTS : List Nat :=
  [0x200E, 0x200F, 0x202A, 0x202B, 0x202C, 0x202D, 0x202E,
   0x2066, 0x2067, 0x2068, 0x2069]

/-- `FORMATTING_CODE_POINTS` from `constants.ts`. -/
def FORMATTING_CODE_POINTS : List Nat :=
  [0x061C, 0x2060, 0x2061, 0x2062, 0x2063, 0x2064,
   0x2066, 0x2067, 0x2068, 0x2069]

/-- `EMOJI_RANGES` from `constants.ts` (inclusive `[start, end]` pairs). -/
def EMOJI_RANGES : List (Nat × Nat) :=
  [(0x1F300, 0x1F64F), (0x1F680, 0x1F6FF), (0x1F700, 0x1F77F),
   (0x1F780, 0x1F7FF), (0x1F800, 0x1F8FF), (0x1F900, 0x1F9FF),
   (0x1FA00, 0x1FA6F), (0x1FA70, 0x1FAFF)]

/-- `WIDE_CHAR_RANGES` from `constants.ts`. -/
def WIDE_CHAR_RANGES : List (Nat × Nat) :=
  [(0x1100, 0x115F), (0x2329, 0x232A), (0x2E80, 0x2E99), (0x2E9B, 0x2EF3),
   (0x2F00, 0x2FD5), (0x2FF0, 0x2FFB), (0x3000, 0x303E), (0x3041, 0x3096),
   (0x3099, 0x30FF), (0x3105, 0x312F), (0x3131, 0x318E), (0x3190, 0x31E3),
   (0x31F0, 0x321E), (0x3220, 0x3247), (0x3250, 0x4DBF), (0x4E00, 0xA4C6),
   (0xA960, 0xA97C), (0xAC00, 0xD7A3), (0xF900, 0xFAFF), (0xFF01, 0xFF60),
   (0xFFE0, 0xFFE6)]

/-- `FULL_WIDTH_RANGES` from `constants.ts`. -/
def FULL_WIDTH_RANGES : List (Nat × Nat) :=
  [(0xFF01, 0xFF60), (0xFFE0, 0xFFE6)]

/-- `AMBIGUOUS_WIDTH_RANGES` from `constants.ts`. -/
def AMBIGUOUS_WIDTH_RANGES : List (Nat × Nat) :=
  [(0x00A1, 0x00A1), (0x00A4, 0x00A4), (0x00A7, 0x00A8), (0x00AA, 0x00AA),
   (0x00AD, 0x00AE), (0x00B0, 0x00B4), (0x00B6, 0x00BA), (0x00BC, 0x00BF),
   (0x00C6, 0x00C6), (0x00D0, 0x00D0), (0x00D7, 0x00D8), (0x00DE, 0x00E1),
   (0x00E6, 0x00E6), (0x00E8, 0x00EA), (0x00EC, 0x00ED), (0x00F0, 0x00F0),
   (0x00F2, 0x00F3), (0x00F7, 0x00FA), (0x00FC, 0x00FC), (0x00FE, 0x00FE),
   (0x0101, 0x0101), (0x0111, 0x0111), (0x0113, 0x0113), (0x011B, 0x011B),
   (0x0126, 0x0127), (0x012B, 0x012B), (0x0131, 0x0133), (0x0138, 0x0138),
   (0x013F, 0x0142), (0x0144, 0x0144), (0x0148, 0x014B), (0x014D, 0x014D),
   (0x0152, 0x0153), (0x0166, 0x0167), (0x016B, 0x016B), (0x01CE, 0x01CE),
   (0x01D0, 0x01D0), (0x01D2, 0x01D2), (0x01D4, 0x01D4), (0x01D6, 0x01D6),
   (0x01D8, 0x01D8), (0x01DA, 0x01DA), (0x01DC, 0x01DC), (0x0251, 0x0251),
   (0x0261, 0x0261), (0x02C4, 0x02C4), (0x02C7, 0x02C7), (0x02C9, 0x02CB),
   (0x02CD, 0x02CD), (0x02D0, 0x02D0), (0x02D8, 0x02DB), (0x02DD, 0x02DD),
   (0x2015, 0x2016), (0x2018, 0x2019), (0x201C, 0x201D), (0x2020, 0x2022),
   (0x2024, 0x2027), (0x2030, 0x2030), (0x2032, 0x2033), (0x2035, 0x2035),
   (0x203B, 0x203B), (0x203E, 0x203E), (0x2074, 0x2074), (0x207F, 0x207F),
   (0x2081, 0x2084), (0x20AC, 0x20AC), (0x2103, 0x2103), (0x2105, 0x2105),
   (0x2109, 0x2109), (0x2113, 0x2113), (0x2116, 0x2116), (0x2121, 0x2122),
   (0x2126, 0x2126), (0x212B, 0x212B), (0x2153, 0x2154), (0x215B, 0x215E),
   (0x2160, 0x216B), (0x2170, 0x2179), (0x2189, 0x2189), (0x2190, 0x2199),
   (0x21B8, 0x21B9), (0x21D2, 0x21D2), (0x21D4, 0x21D4), (0x21E7, 0x21E7),
   (0x2200, 0x2200), (0x2202, 0x2203), (0x2207, 0x2208), (0x220B, 0x220B),
   (0x220F, 0x220F), (0x2211, 0x2211), (0x2215, 0x2215), (0x221A, 0x221A),
   (0x221D, 0x2220), (0x2223, 0x2223), (0x2225, 0x2225), (0x2227, 0x222C),
   (0x222E, 0x222E), (0x2234, 0x2237), (0x223C, 0x223D), (0x2248, 0x2248),
   (0x224C, 0x224C), (0x2252, 0x2252), (0x2260, 0x2261), (0x2264, 0x2267),
   (0x226A, 0x226B), (0x226E, 0x226F), (0x2282, 0x2283), (0x2286, 0x2287),
   (0x2295, 0x2295), (0x2299, 0x2299), (0x22A5, 0x22A5), (0x22BF, 0x22BF),
   (0x2312, 0x2312), (0x2460, 0x24E9), (0x24EB, 0x254B), (0x2550, 0x2573),
   (0x2580, 0x258F), (0x2592, 0x2595), (0x25A0, 0x25A1), (0x25A3, 0x25A9),
   (0x25B2, 0x25B3), (0x25B6, 0x25B7), (0x25BC, 0x25BD), (0x25C0, 0x25C1),
   (0x25C6, 0x25C8), (0x25CB, 0x25CB), (0x25CE, 0x25D1), (0x25E2, 0x25E5),
   (0x25EF, 0x25EF), (0x2605, 0x2606), (0x2609, 0x2609), (0x260E, 0x260F),
   (0x2614, 0x2615), (0x261C, 0x261C), (0x261E, 0x261E), (0x2640, 0x2640),
   (0x2642, 0x2642), (0x2660, 0x2661), (0x2663, 0x2665), (0x2667, 0x266A),
   (0x266C, 0x266D), (0x266F, 0x266F), (0x269E, 0x269F), (0x26BF, 0x26BF),
   (0x26C6, 0x26CD), (0x26CF, 0x26D3), (0x26D5, 0x26E1), (0x26E3, 0x26E3),
   (0x26E8, 0x26E9), (0x26EB, 0x26F1), (0x26F4, 0x26F4), (0x26F6, 0x26F9),
   (0x26FB, 0x26FC), (0x26FE, 0x26FF), (0x273D, 0x273D), (0x2776, 0x277F),
   (0x2B56, 0x2B59), (0x3248, 0x324F), (0xE000, 0xF8FF), (0xFE00, 0xFE0F),
   (0xFFFD, 0xFFFD)]

/-- `isControlCharacter` from `rune.ts`. -/
def isControlCharacter (codePoint : Nat) : Bool :=
  decide (codePoint ≤ 0x1F ∨ (0x7F ≤ codePoint ∧ codePoint ≤ 0x9F))

/-- `isWhitespace` from `rune.ts` (`Set.has` membership). -/
def isWhitespace (codePoint : Nat) : Bool :=
  decide (codePoint ∈ WHITESPACE_CODE_POINTS)

/-- `isZeroWidth` from `rune.ts`. -/
def isZeroWidth (codePoint : Nat) : Bool :=
  decide (codePoint ∈ ZERO_WIDTH_CODE_POINTS)

/-- `isDirectionalMark` from `rune.ts`. -/
def isDirectionalMark (codePoint : Nat) : Bool :=
  decide (codePoint ∈ DIRECTIONAL_CODE_POINTS)

/-- `isFormatting` from `rune.ts`. -/
def isFormatting (codePoint : Nat) : Bool :=
  decide (codePoint ∈ FORMATTING_CODE_POINTS)

/-- Membership of a code point in a list of inclusive ranges
(`ranges.some(([start, end]) => codePoint >= start && codePoint <= end)`). -/
def inRanges (ranges : List (Nat × Nat)) (codePoint : Nat) : Bool :=
  ranges.any fun r => decide (r.1 ≤ codePoint ∧ codePoint ≤ r.2)

/-- `isEmoji` from `rune.ts`. -/
def isEmoji (codePoint : Nat) : Bool :=
  inRanges EMOJI_RANGES codePoint

/-- `isWideChar` from `rune.ts`. -/
def isWideChar (codePoint : Nat) : Bool :=
  inRanges WIDE_CHAR_RANGES codePoint

/-- `isFullWidth` from `rune.ts`. -/
def isFullWidth (codePoint : Nat) : Bool :=
  inRanges FULL_WIDTH_RANGES codePoint

/-- `isAmbiguousWidth` from `rune.ts`. -/
def isAmbiguousWidth (codePoint : Nat) : Bool :=
  inRanges AMBIGUOUS_WIDTH_RANGES codePoint

/-- `enum CharacterCategory` from `rune.ts`. -/
inductive CharacterCategory where
  | CONTROL
  | WHITESPACE
  | NEWLINE
  | TAB
  | PRINTABLE
  | INVALID
  | ZERO_WIDTH
  | FORMATTING
  | DIRECTIONAL_MARK
  | EMOJI
  | WIDE_CHAR
  | FULL_WIDTH
  | AMBIGUOUS_WIDTH
  deriving DecidableEq

/-- `categorizeCharacter` from `rune.ts`: the character argument is the
code-point unit (one or two UTF-16 units); `char === '\r'` etc. are
equality with the corresponding one-unit string. -/
def categorizeCharacter (codePoint : Nat) (char : List Nat) : CharacterCategory :=
  if codePoint = 0xFFFD then .INVALID
  else if char = [0x0D] ∨ char = [0x0A] then .NEWLINE
  else if char = [0x09] then .TAB
  else if isControlCharacter codePoint then .CONTROL
  else if isZeroWidth codePoint then .ZERO_WIDTH
  else if isDirectionalMark codePoint then .DIRECTIONAL_MARK
  else if isFormatting codePoint then .FORMATTING
  else if isEmoji codePoint then .EMOJI
  else if isWideChar codePoint then .WIDE_CHAR
  else if isFullWidth codePoint then .FULL_WIDTH
  else if isAmbiguousWidth codePoint then .AMBIGUOUS_WIDTH
  else if isWhitespace codePoint then .WHITESPACE
  else .PRINTABLE

/-- A UTF-16 high surrogate. -/
def isHighSurrogate (c : Nat) : Bool :=
  decide (0xD800 ≤ c ∧ c ≤ 0xDBFF)

/-- A UTF-16 low surrogate. -/
def isLowSurrogate (c : Nat) : Bool :=
  decide (0xDC00 ≤ c ∧ c ≤ 0xDFFF)

/-- Scalar value of a well-formed surrogate pair. -/
def combineSurrogates (hi lo : Nat) : Nat :=
  0x10000 + (hi - 0xD800) * 0x400 + (lo - 0xDC00)

/-- `Array.from(input)` / `for (const char of input)`: split a JS string
into code-point units.  A well-formed surrogate pair becomes one
two-unit element; every other unit (including a lone surrogate) is its
own element. -/
def decode : List Nat → List (List Nat)
  | [] => []
  | c :: rest =>
    if isHighSurrogate c then
      match rest with
      | c2 :: rest2 =>
        if isLowSurrogate c2 then [c, c2] :: decode rest2
        else [c] :: decode (c2 :: rest2)
      | [] => [[c]]
    else [c] :: decode rest

/-- `str.codePointAt(0)`: leading code point of a string, pairing a
leading well-formed surrogate pair. -/
def codePointAt (u : List Nat) : Option Nat :=
  match u with
  | [] => none
  | c :: rest =>
    if isHighSurrogate c then
      match rest with
      | c2 :: _ => if isLowSurrogate c2 then some (combineSurrogates c c2) else some c
      | [] => some c
    else some c

example : decode [0x61, 0xD834, 0xDD1E] = [[0x61], [0xD834, 0xDD1E]] := by decide
example : codePointAt [0xD834, 0xDD1E] = some 0x1D11E := by decide
example : categorizeCharacter 0x4E16 [0x4E16] = .WIDE_CHAR := by decide
example : categorizeCharacter 0x3000 [0x3000] = .WIDE_CHAR := by decide
example : categorizeCharacter 0xFFFD [0xFFFD] = .INVALID := by decide

/-! ## VT / ANSI escape stripping (`stripVTControlSequences` in `rune.ts`) -/

/-- Parameter characters (digits and question mark) of the CSI branch of
the regex. -/
def isCsiParam (c : Nat) : Bool :=
  decide ((0x30 ≤ c ∧ c ≤ 0x39) ∨ c = 0x3F)

/-- Intermediate characters (0x20..0x2F) of the CSI branch. -/
def isCsiIntermediate (c : Nat) : Bool :=
  decide (0x20 ≤ c ∧ c ≤ 0x2F)

/-- Final characters (0x40..0x7E) of the CSI branch. -/
def isCsiFinal (c : Nat) : Bool :=
  decide (0x40 ≤ c ∧ c ≤ 0x7E)

/-- The two-character escape class of the regex: 0x40..0x5A (at sign to
capital Z) together with 0x5C..0x5F (backslash to underscore). -/
def isTwoCharEscapeFinal (c : Nat) : Bool :=
  decide ((0x40 ≤ c ∧ c ≤ 0x5A) ∨ (0x5C ≤ c ∧ c ≤ 0x5F))

/-- Try to match the body of the regex alternation (the part after the
ESC): either one character of the two-character class, or an open
bracket followed by parameter characters, intermediate characters and a
final character.  Returns the remainder of the string after the match,
or `none` when the regex does not match here.  The greedy star
repetitions never need to backtrack because the parameter and
intermediate classes are disjoint from the final class. -/
def tryMatchEscapeBody (l : List Nat) : Option (List Nat) :=
  match l with
  | [] => none
  | c :: rest =>
    if c = 0x5B then
      let afterParams := rest.dropWhile isCsiParam
      let afterIntermediates := afterParams.dropWhile isCsiIntermediate
      match afterIntermediates with
      | f :: tail => if isCsiFinal f then some tail else none
      | [] => none
    else if isTwoCharEscapeFinal c then some rest
    else none

/-- Global left-to-right, non-overlapping replacement of the escape
regex by the empty string.  The recursion is bounded by a fuel
parameter; every step consumes at least one input character, so fuel
equal to the input length (as supplied by `stripVTPattern`) is never
exhausted. -/
def stripVTPatternAux : Nat → List Nat → List Nat
  | 0, l => l
  | _ + 1, [] => []
  | fuel + 1, c :: rest =>
    if c = 0x1B then
      match tryMatchEscapeBody rest with
      | some rest2 => stripVTPatternAux fuel rest2
      | none => c :: stripVTPatternAux fuel rest
    else c :: stripVTPatternAux fuel rest

/-- The self-contained, pattern-based escape remover: the regex
replacement in the fallback branch of `stripVTControlSequences`. -/
def stripVTPattern (l : List Nat) : List Nat :=
  stripVTPatternAux l.length l

/-- `stripVTControlSequences` from `rune.ts`.  The source first looks up
`globalThis.require?.('util')` (guarded by `typeof process !== 'undefined'`)
and, when the host provides `util.stripVTControlCharacters`, returns its
result; only otherwise does it fall back to the regex.  The ambient,
host-dependent primitive is modelled by the `env` parameter
(`none` = no such primitive is available in this runtime). -/
def stripVTControlSequences (env : Option (List Nat → List Nat))
    (input : List Nat) : List Nat :=
  match env with
  | some f => f input
  | none => stripVTPattern input

example :
    stripVTPattern
      ([0x1B, 0x5B, 0x33, 0x31, 0x6D] ++ [0x48, 0x65, 0x6C, 0x6C, 0x6F] ++
        [0x1B, 0x5B, 0x30, 0x6D]) =
      [0x48, 0x65, 0x6C, 0x6C, 0x6F] := by decide
example : stripVTPattern [0x1B, 0x5B] = [0x1B, 0x5B] := by decide
example : stripVTPattern [0x1B, 0x41, 0x42] = [0x42] := by decide

/-! ## Sanitizer (`SanitizerOptions`, `processCharacter`, `sanitizeString`) -/

/-- `SanitizerOptions` from `rune.ts`.  String-valued fields are lists of
UTF-16 code units; unset fields are `none` (JS `undefined`).  The
`customReplacements` map is modelled as its lookup function
(`has` + `get`, where a key mapped to `undefined` behaves like an absent
key).  `unicodeNormalization` is modelled by the host normalization
function for the requested form, since Unicode normalization is
performed by the JS runtime, not by this code. -/
structure SanitizerOptions where
  replaceNewLine : Option (List Nat) := none
  replaceTab : Option (List Nat) := none
  customReplacements : Nat → Option (List Nat) := fun _ => none
  preserveControlChars : Bool := false
  maxConsecutiveWhitespace : Option Nat := none
  stripVTControlSequences : Bool := false
  unicodeNormalization : Option (List Nat → List Nat) := none
  maxLength : Option Nat := none
  replaceInvalidWith : Option (List Nat) := none
  preserveZeroWidth : Bool := false
  preserveDirectional : Bool := false
  ansiWidth : Option Nat := none
  controlWidth : Option Nat := none
  tabWidth : Option Nat := none
  ambiguousWidth : Option Nat := none
  emojiWidth : Option Nat := none
  fullWidthWidth : Option Nat := none
  regularWidth : Option Nat := none
  wideWidth : Option Nat := none

/-- `handleWhitespaceLimit` from `rune.ts`: pushes `char` exactly when the
limit is `0` (unset) or the counter before this character is strictly
below the limit.  Returns the pushed fragment. -/
def handleWhitespaceLimit (char : List Nat) (count : Nat)
    (maxConsecutiveWhitespace : Nat) : List Nat :=
  if maxConsecutiveWhitespace = 0 ∨ count < maxConsecutiveWhitespace then char
  else []

/-- `processCharacter` from `rune.ts`: returns the emitted fragment (the
concatenation of the pushed strings) and the updated
consecutive-whitespace counter.  In the `INVALID` branch the source
pushes `options.replaceInvalidWith` only when it is truthy; pushing the
empty string is the identity on the concatenated output, so the
truthiness test is dropped here. -/
def processCharacter (char : List Nat) (codePoint : Nat) (count : Nat)
    (opts : SanitizerOptions) : List Nat × Nat :=
  match opts.customReplacements codePoint with
  | some replacement =>
    (replacement, if isWhitespace codePoint then count + 1 else 0)
  | none =>
    match categorizeCharacter codePoint char with
    | .INVALID => (opts.replaceInvalidWith.getD [], count)
    | .NEWLINE =>
      (handleWhitespaceLimit (opts.replaceNewLine.getD [0x0A]) count
        (opts.maxConsecutiveWhitespace.getD 0), 1)
    | .TAB =>
      (handleWhitespaceLimit (opts.replaceTab.getD [0x20, 0x20, 0x20, 0x20]) count
        (opts.maxConsecutiveWhitespace.getD 0), 1)
    | .CONTROL =>
      if opts.preserveControlChars then (char, 0) else ([], count)
    | .WHITESPACE =>
      (handleWhitespaceLimit char count (opts.maxConsecutiveWhitespace.getD 0),
        count + 1)
    | .ZERO_WIDTH => (if opts.preserveZeroWidth then char else [], count)
    | .DIRECTIONAL_MARK => (if opts.preserveDirectional then char else [], count)
    | _ => (char, 0)

/-- The loop of `processCharacters`: fold `processCharacter` over the
code-point units, threading the consecutive-whitespace counter. -/
def processCharsGo (opts : SanitizerOptions) :
    List (List Nat) → Nat → List Nat
  | [], _ => []
  | u :: rest, count =>
    match codePointAt u with
    | none => processCharsGo opts rest count
    | some cp =>
      let r := processCharacter u cp count opts
      r.1 ++ processCharsGo opts rest r.2

/-- `processCharacters` from `rune.ts`. -/
def processCharacters (input : List Nat) (opts : SanitizerOptions) : List Nat :=
  processCharsGo opts (decode input) 0

/-- `sanitizeString` from `rune.ts`.  `env` is the ambient platform
escape-stripping primitive threaded into `stripVTControlSequences`
(see there). -/
def sanitizeString (env : Option (List Nat → List Nat)) (input : List Nat)
    (opts : SanitizerOptions) : List Nat :=
  if input = [] then []
  else
    let p1 := if opts.stripVTControlSequences then stripVTControlSequences env input
              else input
    let p2 := match opts.unicodeNormalization with
              | some f => f p1
              | none => p1
    let r := processCharacters p2 opts
    match opts.maxLength with
    | some m => if 0 < m ∧ m < r.length then r.take m else r
    | none => r

example :
    sanitizeString none
      [0x48, 0x65, 0x6C, 0x6C, 0x6F, 0x20, 0x20, 0x20, 0x20, 0x57, 0x6F, 0x72, 0x6C, 0x64]
      { maxConsecutiveWhitespace := some 2 } =
      [0x48, 0x65, 0x6C, 0x6C, 0x6F, 0x20, 0x20, 0x57, 0x6F, 0x72, 0x6C, 0x64] := by decide
example :
    sanitizeString none [0x48, 0x65, 0x6C, 0x6C, 0x6F, 0x09, 0x57] {} =
      [0x48, 0x65, 0x6C, 0x6C, 0x6F, 0x20, 0x20, 0x20, 0x20, 0x57] := by decide
example :
    sanitizeString none [0x48, 0xFFFD, 0x57] { replaceInvalidWith := some [0x3F] } =
      [0x48, 0x3F, 0x57] := by decide
example :
    sanitizeString none [0x61, 0xD834, 0xDD1E] { maxLength := some 2 } =
      [0x61, 0xD834] := by decide

/-! ## Width calculation (`getCharWidth`, `getStringWidth` in `rune.ts`) -/

/-- `getCharWidth` from `rune.ts`. -/
def getCharWidth (char : List Nat) (opts : SanitizerOptions) : Nat :=
  match codePointAt char with
  | none => 0
  | some codePoint =>
    if isEmoji codePoint then opts.emojiWidth.getD 2
    else if isFullWidth codePoint then opts.fullWidthWidth.getD 2
    else if isWideChar codePoint then opts.wideWidth.getD 2
    else if isAmbiguousWidth codePoint then opts.ambiguousWidth.getD 1
    else if isZeroWidth codePoint then 0
    else if isControlCharacter codePoint then 0
    else 1

/-- The option object passed to the `fast-string-width` dependency. -/
structure FastStringWidthOptions where
  ansiWidth : Nat
  controlWidth : Nat
  tabWidth : Nat
  ambiguousWidth : Nat
  emojiWidth : Nat
  fullWidthWidth : Nat
  regularWidth : Nat
  wideWidth : Nat
  deriving DecidableEq

/-- `convertToFastStringWidthOptions` from `rune.ts`. -/
def convertToFastStringWidthOptions (opts : SanitizerOptions) :
    FastStringWidthOptions where
  ansiWidth := opts.ansiWidth.getD 0
  controlWidth := opts.controlWidth.getD 0
  tabWidth := opts.tabWidth.getD 8
  ambiguousWidth := opts.ambiguousWidth.getD 1
  emojiWidth := opts.emojiWidth.getD 2
  fullWidthWidth := opts.fullWidthWidth.getD 2
  regularWidth := opts.regularWidth.getD 1
  wideWidth := opts.wideWidth.getD 2

/-- Modelled from the spec: per-code-point width used by the external
`fast-string-width` npm dependency, described in the spec as the same
category-to-width mapping `charWidth` uses (emoji, then full-width, then
wide, then ambiguous, then zero-width), with `controlWidth` for control
characters not covered by those categories and `regularWidth` otherwise. -/
def fastStringWidthOfCp (cp : Nat) (o : FastStringWidthOptions) : Nat :=
  if isControlCharacter cp then o.controlWidth
  else if isEmoji cp then o.emojiWidth
  else if isFullWidth cp then o.fullWidthWidth
  else if isWideChar cp then o.wideWidth
  else if isAmbiguousWidth cp then o.ambiguousWidth
  else if isZeroWidth cp then 0
  else o.regularWidth

/-- Modelled from the spec: the external `fast-string-width` npm
dependency (imported as `sw` in `rune.ts`), which is not part of this
repository.  Per the spec it sums per-character widths using the
category-to-width mapping, additionally honoring `tabWidth` for tabs and
`ansiWidth` for whole escape sequences (recognised with the same
escape-sequence pattern), and it decodes surrogate pairs to single code
points.  Fuel-bounded like `stripVTPatternAux`; every step consumes at
least one code unit. -/
def fastStringWidthAux (o : FastStringWidthOptions) : Nat → List Nat → Nat
  | 0, _ => 0
  | _ + 1, [] => 0
  | fuel + 1, c :: rest =>
    if c = 0x1B then
      match tryMatchEscapeBody rest with
      | some rest2 => o.ansiWidth + fastStringWidthAux o fuel rest2
      | none => o.controlWidth + fastStringWidthAux o fuel rest
    else if c = 0x09 then o.tabWidth + fastStringWidthAux o fuel rest
    else if isHighSurrogate c then
      match rest with
      | c2 :: rest2 =>
        if isLowSurrogate c2 then
          fastStringWidthOfCp (combineSurrogates c c2) o + fastStringWidthAux o fuel rest2
        else fastStringWidthOfCp c o + fastStringWidthAux o fuel (c2 :: rest2)
      | [] => fastStringWidthOfCp c o
    else fastStringWidthOfCp c o + fastStringWidthAux o fuel rest

/-- Modelled from the spec: entry point of the `fast-string-width`
model. -/
def fastStringWidth (s : List Nat) (o : FastStringWidthOptions) : Nat :=
  fastStringWidthAux o s.length s

/-- `getStringWidth` from `rune.ts`: sanitize first when
`stripVTControlSequences` or `maxConsecutiveWhitespace` is truthy, then
measure with `fast-string-width`. -/
def getStringWidth (env : Option (List Nat → List Nat)) (str : List Nat)
    (opts : SanitizerOptions) : Nat :=
  let sanitizedStr :=
    if opts.stripVTControlSequences ∨ opts.maxConsecutiveWhitespace.getD 0 ≠ 0 then
      sanitizeString env str opts
    else str
  fastStringWidth sanitizedStr (convertToFastStringWidthOptions opts)

example :
    getStringWidth none
      [0x48, 0x65, 0x6C, 0x6C, 0x6F, 0x20, 0x4E16, 0x754C, 0x21] {} = 11 := by decide
example :
    getStringWidth none
      ([0x1B, 0x5B, 0x33, 0x31, 0x6D] ++ [0x48, 0x65, 0x6C, 0x6C, 0x6F] ++
        [0x1B, 0x5B, 0x30, 0x6D]) {} = 5 := by decide

/-! ## `visibleLength` and `truncate` (ANSI-aware helpers)

These live alongside the width calculator and use the host
`util.stripVTControlCharacters` primitive (`node:util`), modelled as an
explicit `strip` function parameter. -/

/-- `visibleLength`: length of the string after stripping ANSI escape
sequences. -/
def visibleLength (strip : List Nat → List Nat) (text : List Nat) : Nat :=
  (strip text).length

/-- The character loop of `truncate`: walks the code-point units carrying
the visible-character count, the `inAnsi` flag and the pending ANSI
buffer; an ANSI sequence is flushed verbatim when its final `m` unit
arrives, an unterminated one is dropped, and the walk breaks at the
first visible character past the budget. -/
def truncateWalk : List (List Nat) → Nat → Bool → List Nat → Nat → List Nat
  | [], _, _, _, _ => []
  | u :: rest, visibleCount, inAnsi, ansiBuffer, budget =>
    if inAnsi then
      if u = [0x6D] then
        (ansiBuffer ++ u) ++ truncateWalk rest visibleCount false [] budget
      else truncateWalk rest visibleCount true (ansiBuffer ++ u) budget
    else if u = [0x1B] then truncateWalk rest visibleCount true [0x1B] budget
    else if visibleCount < budget then
      u ++ truncateWalk rest (visibleCount + 1) false [] budget
    else []

/-- `truncate` from the ANSI-aware text helpers: unchanged when the
stripped length fits, otherwise walk with budget
`maxLength - suffix.length` and append the suffix. -/
def truncate (strip : List Nat → List Nat) (text : List Nat)
    (maxLength : Nat) (suffix : List Nat) : List Nat :=
  if (strip text).length ≤ maxLength then text
  else truncateWalk (decode text) 0 false [] (maxLength - suffix.length) ++ suffix

example :
    truncate stripVTPattern
      ([0x1B, 0x5B, 0x33, 0x31, 0x6D] ++ [0x61, 0x62, 0x63, 0x64] ++ [0x1B, 0x5B, 0x30, 0x6D])
      3 [0x2E] =
      [0x1B, 0x5B, 0x33, 0x31, 0x6D, 0x61, 0x62] ++ [0x2E] := by decide

/-! ## Spec-side definitions and helper lemmas -/

/-- The classifier as the claim words it: the same fixed precedence, with
set membership and range membership written as plain propositions. -/
def categorizeSpec (p : Nat) (char : List Nat) : CharacterCategory :=
  if p = 0xFFFD then .INVALID
  else if char = [0x0D] ∨ char = [0x0A] then .NEWLINE
  else if char = [0x09] then .TAB
  else if p ≤ 0x1F ∨ (0x7F ≤ p ∧ p ≤ 0x9F) then .CONTROL
  else if p ∈ ZERO_WIDTH_CODE_POINTS then .ZERO_WIDTH
  else if p ∈ DIRECTIONAL_CODE_POINTS then .DIRECTIONAL_MARK
  else if p ∈ FORMATTING_CODE_POINTS then .FORMATTING
  else if ∃ r ∈ EMOJI_RANGES, r.1 ≤ p ∧ p ≤ r.2 then .EMOJI
  else if ∃ r ∈ WIDE_CHAR_RANGES, r.1 ≤ p ∧ p ≤ r.2 then .WIDE_CHAR
  else if ∃ r ∈ FULL_WIDTH_RANGES, r.1 ≤ p ∧ p ≤ r.2 then .FULL_WIDTH
  else if ∃ r ∈ AMBIGUOUS_WIDTH_RANGES, r.1 ≤ p ∧ p ≤ r.2 then .AMBIGUOUS_WIDTH
  else if p ∈ WHITESPACE_CODE_POINTS then .WHITESPACE
  else .PRINTABLE

theorem inRanges_le_of_all {rs : List (Nat × Nat)} {B cp : Nat}
    (hall : rs.all (fun r => decide (r.2 ≤ B)) = true)
    (h : inRanges rs cp = true) : cp ≤ B := by
  simp only [inRanges, List.any_eq_true, decide_eq_true_eq] at h
  simp only [List.all_eq_true, decide_eq_true_eq] at hall
  obtain ⟨r, hr, _, h2⟩ := h
  exact le_trans h2 (hall r hr)

theorem le_inRanges_of_all {rs : List (Nat × Nat)} {B cp : Nat}
    (hall : rs.all (fun r => decide (B ≤ r.1)) = true)
    (h : inRanges rs cp = true) : B ≤ cp := by
  simp only [inRanges, List.any_eq_true, decide_eq_true_eq] at h
  simp only [List.all_eq_true, decide_eq_true_eq] at hall
  obtain ⟨r, hr, h1, _⟩ := h
  exact le_trans (hall r hr) h1

theorem inRanges_eq_false_of_avoid {rs : List (Nat × Nat)} {A B cp : Nat}
    (hall : rs.all (fun r => decide (r.2 < A ∨ B < r.1)) = true)
    (h1 : A ≤ cp) (h2 : cp ≤ B) : inRanges rs cp = false := by
  cases h : inRanges rs cp with
  | false => rfl
  | true =>
    exfalso
    simp only [inRanges, List.any_eq_true, decide_eq_true_eq] at h
    simp only [List.all_eq_true, decide_eq_true_eq] at hall
    obtain ⟨r, hr, hb1, hb2⟩ := h
    rcases hall r hr with h3 | h3 <;> omega

theorem mem_decide_eq_false_of_avoid {ls : List Nat} {A B cp : Nat}
    (hall : ls.all (fun x => decide (x < A ∨ B < x)) = true)
    (h1 : A ≤ cp) (h2 : cp ≤ B) : decide (cp ∈ ls) = false := by
  simp only [List.all_eq_true, decide_eq_true_eq] at hall
  simp only [decide_eq_false_iff_not]
  intro hmem
  rcases hall cp hmem with h3 | h3 <;> omega

set_option maxHeartbeats 2000000 in
theorem categorize_eq_invalid {cp : Nat} {u : List Nat}
    (h : categorizeCharacter cp u = .INVALID) : cp = 0xFFFD := by
  unfold categorizeCharacter at h
  split_ifs at h
  all_goals assumption

set_option maxHeartbeats 2000000 in
theorem categorize_eq_newline {cp : Nat} {u : List Nat}
    (h : categorizeCharacter cp u = .NEWLINE) : u = [0x0D] ∨ u = [0x0A] := by
  unfold categorizeCharacter at h
  split_ifs at h
  all_goals assumption

set_option maxHeartbeats 2000000 in
theorem categorize_eq_tab {cp : Nat} {u : List Nat}
    (h : categorizeCharacter cp u = .TAB) : u = [0x09] := by
  unfold categorizeCharacter at h
  split_ifs at h
  all_goals assumption

set_option maxHeartbeats 2000000 in
theorem categorize_eq_control {cp : Nat} {u : List Nat}
    (h : categorizeCharacter cp u = .CONTROL) : isControlCharacter cp = true := by
  unfold categorizeCharacter at h
  split_ifs at h
  all_goals assumption

set_option maxHeartbeats 2000000 in
theorem categorize_eq_zero_width {cp : Nat} {u : List Nat}
    (h : categorizeCharacter cp u = .ZERO_WIDTH) : isZeroWidth cp = true := by
  unfold categorizeCharacter at h
  split_ifs at h
  all_goals assumption

set_option maxHeartbeats 2000000 in
theorem categorize_eq_directional {cp : Nat} {u : List Nat}
    (h : categorizeCharacter cp u = .DIRECTIONAL_MARK) :
    isDirectionalMark cp = true := by
  unfold categorizeCharacter at h
  split_ifs at h
  all_goals assumption

/-! ## Default-options emission (towards idempotence of `sanitizeString`) -/

/-- Fragment emitted by `processCharacter` under all-default options for a
unit of code point `cp`: invalid, control, zero-width and directional
units are dropped, newlines become a line feed, tabs become four spaces
(the default replacements), and everything else is emitted unchanged
(the whitespace limit is `0`, i.e. unlimited). -/
def emitDefaultAt (cp : Nat) (u : List Nat) : List Nat :=
  match categorizeCharacter cp u with
  | .INVALID => []
  | .NEWLINE => [0x0A]
  | .TAB => [0x20, 0x20, 0x20, 0x20]
  | .CONTROL => []
  | .ZERO_WIDTH => []
  | .DIRECTIONAL_MARK => []
  | _ => u

/-- Fragment emitted for a whole code-point unit under default options. -/
def emitDefault (u : List Nat) : List Nat :=
  match codePointAt u with
  | none => []
  | some cp => emitDefaultAt cp u

theorem codePointAt_singleton (c : Nat) : codePointAt [c] = some c := by
  show (if isHighSurrogate c = true then some c else some c) = some c
  split <;> rfl

theorem isHighSurrogate_bounds {c : Nat} (h : isHighSurrogate c = true) :
    0xD800 ≤ c ∧ c ≤ 0xDBFF := by
  simpa [isHighSurrogate] using h

theorem isLowSurrogate_bounds {c : Nat} (h : isLowSurrogate c = true) :
    0xDC00 ≤ c ∧ c ≤ 0xDFFF := by
  simpa [isLowSurrogate] using h

theorem codePointAt_pair {c1 c2 : Nat} (h1 : isHighSurrogate c1 = true)
    (h2 : isLowSurrogate c2 = true) :
    codePointAt [c1, c2] = some (combineSurrogates c1 c2) := by
  unfold codePointAt
  simp [h1, h2]

theorem combineSurrogates_bounds {c1 c2 : Nat} (h1 : isHighSurrogate c1 = true)
    (h2 : isLowSurrogate c2 = true) :
    0x10000 ≤ combineSurrogates c1 c2 ∧ combineSurrogates c1 c2 ≤ 0x10FFFF := by
  obtain ⟨ha, hb⟩ := isHighSurrogate_bounds h1
  obtain ⟨hc, hd⟩ := isLowSurrogate_bounds h2
  unfold combineSurrogates
  constructor <;> omega

/-- Any unit whose code point and text avoid the six dropped-or-replaced
cases is emitted unchanged under default options. -/
theorem emitDefaultAt_eq_self {u : List Nat} {cp : Nat}
    (h1 : cp ≠ 0xFFFD) (h2 : u ≠ [0x0D]) (h2b : u ≠ [0x0A]) (h3 : u ≠ [0x09])
    (h4 : isControlCharacter cp = false) (h5 : isZeroWidth cp = false)
    (h6 : isDirectionalMark cp = false) : emitDefaultAt cp u = u := by
  unfold emitDefaultAt
  cases hcat : categorizeCharacter cp u with
  | INVALID => exact absurd (categorize_eq_invalid hcat) h1
  | NEWLINE =>
    rcases categorize_eq_newline hcat with h | h
    · exact absurd h h2
    · exact absurd h h2b
  | TAB => exact absurd (categorize_eq_tab hcat) h3
  | CONTROL =>
    rw [categorize_eq_control hcat] at h4
    exact Bool.noConfusion h4
  | ZERO_WIDTH =>
    rw [categorize_eq_zero_width hcat] at h5
    exact Bool.noConfusion h5
  | DIRECTIONAL_MARK =>
    rw [categorize_eq_directional hcat] at h6
    exact Bool.noConfusion h6
  | WHITESPACE => rfl
  | PRINTABLE => rfl
  | FORMATTING => rfl
  | EMOJI => rfl
  | WIDE_CHAR => rfl
  | FULL_WIDTH => rfl
  | AMBIGUOUS_WIDTH => rfl

/-- A well-formed surrogate pair is always emitted unchanged under
default options: its code point is supplementary (at least 0x10000), so
none of the dropped or replaced categories can apply. -/
theorem emitDefault_pair {c1 c2 : Nat} (h1 : isHighSurrogate c1 = true)
    (h2 : isLowSurrogate c2 = true) : emitDefault [c1, c2] = [c1, c2] := by
  have hb := combineSurrogates_bounds h1 h2
  unfold emitDefault
  rw [codePointAt_pair h1 h2]
  apply emitDefaultAt_eq_self
  · omega
  · simp
  · simp
  · simp
  · simp only [isControlCharacter, decide_eq_false_iff_not]
    omega
  · unfold isZeroWidth
    exact mem_decide_eq_false_of_avoid (by decide) hb.1 hb.2
  · unfold isDirectionalMark
    exact mem_decide_eq_false_of_avoid (by decide) hb.1 hb.2

/-- A lone surrogate code unit is `PRINTABLE` pass-through, hence emitted
unchanged under default options. -/
theorem emitDefault_surrogate_singleton {c : Nat} (hc1 : 0xD800 ≤ c)
    (hc2 : c ≤ 0xDFFF) : emitDefault [c] = [c] := by
  unfold emitDefault
  rw [codePointAt_singleton]
  apply emitDefaultAt_eq_self
  · omega
  · simp only [ne_eq, List.cons.injEq, and_true]; omega
  · simp only [ne_eq, List.cons.injEq, and_true]; omega
  · simp only [ne_eq, List.cons.injEq, and_true]; omega
  · simp only [isControlCharacter, decide_eq_false_iff_not]
    omega
  · unfold isZeroWidth
    exact mem_decide_eq_false_of_avoid (by decide) hc1 hc2
  · unfold isDirectionalMark
    exact mem_decide_eq_false_of_avoid (by decide) hc1 hc2

theorem decode_cons_pair {c c2 : Nat} (rest2 : List Nat)
    (hh : isHighSurrogate c = true) (hl : isLowSurrogate c2 = true) :
    decode (c :: c2 :: rest2) = [c, c2] :: decode rest2 := by
  simp [decode, hh, hl]

theorem decode_cons_high_nolow {c c2 : Nat} (rest2 : List Nat)
    (hh : isHighSurrogate c = true) (hl : isLowSurrogate c2 = false) :
    decode (c :: c2 :: rest2) = [c] :: decode (c2 :: rest2) := by
  simp [decode, hh, hl]

theorem decode_singleton_high {c : Nat} (hh : isHighSurrogate c = true) :
    decode [c] = [[c]] := by
  simp [decode, hh]

theorem decode_cons_nothigh {c : Nat} (rest : List Nat)
    (hh : isHighSurrogate c = false) :
    decode (c :: rest) = [c] :: decode rest := by
  cases rest <;> simp [decode, hh]

theorem decode_mem_shape_aux :
    ∀ (n : Nat) (s : List Nat), s.length ≤ n → ∀ u ∈ decode s,
      (∃ c, u = [c]) ∨
        ∃ c1 c2, u = [c1, c2] ∧ isHighSurrogate c1 = true ∧ isLowSurrogate c2 = true := by
  intro n
  induction n with
  | zero =>
    intro s hs u hu
    rw [List.length_eq_zero.mp (Nat.le_zero.mp hs)] at hu
    simp [decode] at hu
  | succ n ih =>
    intro s hs u hu
    match s with
    | [] => simp [decode] at hu
    | c :: rest =>
      by_cases hh : isHighSurrogate c = true
      · match rest with
        | [] =>
          rw [decode_singleton_high hh, List.mem_singleton] at hu
          exact Or.inl ⟨c, hu⟩
        | c2 :: rest2 =>
          by_cases hl : isLowSurrogate c2 = true
          · rw [decode_cons_pair rest2 hh hl] at hu
            rcases List.mem_cons.mp hu with h | h
            · exact Or.inr ⟨c, c2, h, hh, hl⟩
            · exact ih rest2 (by simp at hs ⊢; omega) u h
          · rw [decode_cons_high_nolow rest2 hh (Bool.eq_false_iff.mpr hl)] at hu
            rcases List.mem_cons.mp hu with h | h
            · exact Or.inl ⟨c, h⟩
            · exact ih (c2 :: rest2) (by simp at hs ⊢; omega) u h
      · rw [decode_cons_nothigh rest (Bool.eq_false_iff.mpr hh)] at hu
        rcases List.mem_cons.mp hu with h | h
        · exact Or.inl ⟨c, h⟩
        · exact ih rest (by simp at hs ⊢; omega) u h

/-- Every unit produced by `decode` is a single code unit or a
well-formed surrogate pair. -/
theorem decode_mem_shape {s u : List Nat} (hu : u ∈ decode s) :
    (∃ c, u = [c]) ∨
      ∃ c1 c2, u = [c1, c2] ∧ isHighSurrogate c1 = true ∧ isLowSurrogate c2 = true :=
  decode_mem_shape_aux s.length s le_rfl u hu

theorem processCharacter_default_fst (u : List Nat) (cp count : Nat) :
    (processCharacter u cp count ({} : SanitizerOptions)).1 = emitDefaultAt cp u := by
  cases hcat : categorizeCharacter cp u <;>
    simp [processCharacter, emitDefaultAt, hcat, handleWhitespaceLimit]

theorem processCharsGo_default (units : List (List Nat)) (count : Nat) :
    processCharsGo {} units count = (units.map emitDefault).flatten := by
  induction units generalizing count with
  | nil => rfl
  | cons u rest ih =>
    unfold processCharsGo
    cases h : codePointAt u with
    | none => simp [emitDefault, h, ih]
    | some cp =>
      simp only [List.map_cons, List.flatten_cons]
      rw [ih, emitDefault, h, processCharacter_default_fst]

theorem processCharacters_default (l : List Nat) :
    processCharacters l {} = ((decode l).map emitDefault).flatten :=
  processCharsGo_default (decode l) 0

theorem emitDefault_singleton_eq (c : Nat) :
    emitDefault [c] = emitDefaultAt c [c] := by
  unfold emitDefault
  rw [codePointAt_singleton]

theorem join_map_emitDefault_id :
    ∀ (n : Nat) (l : List Nat), l.length ≤ n →
      (∀ c ∈ l, emitDefault [c] = [c]) →
      ((decode l).map emitDefault).flatten = l := by
  intro n
  induction n with
  | zero =>
    intro l hl _
    rw [List.length_eq_zero.mp (Nat.le_zero.mp hl)]
    rfl
  | succ n ih =>
    intro l hl hgood
    match l with
    | [] => rfl
    | c :: rest =>
      by_cases hh : isHighSurrogate c = true
      · match rest with
        | [] =>
          rw [decode_singleton_high hh]
          simp only [List.map_cons, List.map_nil, List.flatten]
          rw [hgood c (List.mem_cons_self c [])]
          rfl
        | c2 :: rest2 =>
          by_cases hl2 : isLowSurrogate c2 = true
          · rw [decode_cons_pair rest2 hh hl2]
            simp only [List.map_cons, List.flatten_cons]
            rw [emitDefault_pair hh hl2,
              ih rest2 (by simp at hl ⊢; omega)
                (fun x hx => hgood x (by simp [hx]))]
            rfl
          · rw [decode_cons_high_nolow rest2 hh (Bool.eq_false_iff.mpr hl2)]
            simp only [List.map_cons, List.flatten_cons]
            rw [hgood c (List.mem_cons_self c _),
              ih (c2 :: rest2) (by simp at hl ⊢; omega)
                (fun x hx => hgood x (by simp [List.mem_cons.mp hx]))]
            rfl
      · rw [decode_cons_nothigh rest (Bool.eq_false_iff.mpr hh)]
        simp only [List.map_cons, List.flatten_cons]
        rw [hgood c (List.mem_cons_self c _),
          ih rest (by simp at hl ⊢; omega)
            (fun x hx => hgood x (by simp [hx]))]
        rfl

theorem emitDefault_good_units {u : List Nat}
    (hshape : (∃ c, u = [c]) ∨
      ∃ c1 c2, u = [c1, c2] ∧ isHighSurrogate c1 = true ∧ isLowSurrogate c2 = true) :
    ∀ x ∈ emitDefault u, emitDefault [x] = [x] := by
  rcases hshape with ⟨c, rfl⟩ | ⟨c1, c2, rfl, h1, h2⟩
  · rw [emitDefault_singleton_eq]
    unfold emitDefaultAt
    cases hcat : categorizeCharacter c [c] with
    | INVALID => intro x hx; simp at hx
    | CONTROL => intro x hx; simp at hx
    | ZERO_WIDTH => intro x hx; simp at hx
    | DIRECTIONAL_MARK => intro x hx; simp at hx
    | NEWLINE =>
      intro x hx
      simp at hx
      subst hx
      decide
    | TAB =>
      intro x hx
      simp at hx
      subst hx
      decide
    | WHITESPACE =>
      intro x hx
      simp at hx
      subst hx
      rw [emitDefault_singleton_eq]
      unfold emitDefaultAt
      rw [hcat]
    | PRINTABLE =>
      intro x hx
      simp at hx
      subst hx
      rw [emitDefault_singleton_eq]
      unfold emitDefaultAt
      rw [hcat]
    | FORMATTING =>
      intro x hx
      simp at hx
      subst hx
      rw [emitDefault_singleton_eq]
      unfold emitDefaultAt
      rw [hcat]
    | EMOJI =>
      intro x hx
      simp at hx
      subst hx
      rw [emitDefault_singleton_eq]
      unfold emitDefaultAt
      rw [hcat]
    | WIDE_CHAR =>
      intro x hx
      simp at hx
      subst hx
      rw [emitDefault_singleton_eq]
      unfold emitDefaultAt
      rw [hcat]
    | FULL_WIDTH =>
      intro x hx
      simp at hx
      subst hx
      rw [emitDefault_singleton_eq]
      unfold emitDefaultAt
      rw [hcat]
    | AMBIGUOUS_WIDTH =>
      intro x hx
      simp at hx
      subst hx
      rw [emitDefault_singleton_eq]
      unfold emitDefaultAt
      rw [hcat]
  · rw [emitDefault_pair h1 h2]
    intro x hx
    simp only [List.mem_cons, List.not_mem_nil, or_false] at hx
    obtain ⟨hb1, hb2⟩ := isHighSurrogate_bounds h1
    obtain ⟨hb3, hb4⟩ := isLowSurrogate_bounds h2
    rcases hx with rfl | rfl
    · exact emitDefault_surrogate_singleton hb1 (by omega)
    · exact emitDefault_surrogate_singleton (by omega) hb4

/-- Every code unit of a default-options sanitizer output is emitted
unchanged when sanitized again. -/
theorem processCharacters_default_good (s : List Nat) :
    ∀ c ∈ processCharacters s ({} : SanitizerOptions), emitDefault [c] = [c] := by
  intro c hc
  rw [processCharacters_default, List.mem_flatten] at hc
  obtain ⟨piece, hpiece, hcpiece⟩ := hc
  rw [List.mem_map] at hpiece
  obtain ⟨u, hu, rfl⟩ := hpiece
  exact emitDefault_good_units (decode_mem_shape hu) c hcpiece

theorem sanitizeString_default (env : Option (List Nat → List Nat)) (t : List Nat) :
    sanitizeString env t {} = processCharacters t {} := by
  unfold sanitizeString
  split
  · subst ‹t = []›
    rfl
  · rfl

/-! ## Claim theorems -/

/-- Claim C1: for every code point p (0x0 to 0x10FFFF, including the
ill-formed-decode marker U+FFFD) and its character, `categorizeCharacter`
returns exactly one category following the fixed precedence INVALID,
NEWLINE, TAB, CONTROL, then membership in the zero-width set,
directional set, formatting set, emoji ranges, wide ranges, full-width
ranges, ambiguous-width ranges, whitespace set, in that order, else
PRINTABLE (stated as equality with `categorizeSpec`, the chain written
from the claim), and it is deterministic: equal arguments give equal
results. -/
theorem categorizeCharacter_follows_spec_precedence :
    ∀ (p : Nat) (char : List Nat),
      categorizeCharacter p char = categorizeSpec p char ∧
      ∀ (q : Nat) (char2 : List Nat), q = p → char2 = char →
        categorizeCharacter q char2 = categorizeCharacter p char := by
  intro p char
  constructor
  · unfold categorizeCharacter categorizeSpec
    simp only [isControlCharacter, isZeroWidth, isDirectionalMark, isFormatting,
      isEmoji, isWideChar, isFullWidth, isAmbiguousWidth, isWhitespace, inRanges,
      List.any_eq_true, decide_eq_true_eq]
  · intro q char2 hq hchar
    subst hq
    subst hchar
    rfl

/-- Witness for claim C1 at concrete inputs. -/
theorem categorizeCharacter_follows_spec_precedence_witness :
    categorizeCharacter 0x4E16 [0x4E16] = categorizeSpec 0x4E16 [0x4E16] ∧
    categorizeCharacter 0xFFFD [0xFFFD] = categorizeCharacter 0xFFFD [0xFFFD] :=
  ⟨(categorizeCharacter_follows_spec_precedence 0x4E16 [0x4E16]).1,
   (categorizeCharacter_follows_spec_precedence 0xFFFD [0xFFFD]).2
     0xFFFD [0xFFFD] rfl rfl⟩

theorem isFullWidth_imp_isWideChar {p : Nat} (h : isFullWidth p = true) :
    isWideChar p = true := by
  simp only [isFullWidth, isWideChar, inRanges, List.any_eq_true,
    decide_eq_true_eq] at h ⊢
  obtain ⟨r, hr, h1, h2⟩ := h
  simp only [FULL_WIDTH_RANGES, List.mem_cons, List.not_mem_nil, or_false] at hr
  rcases hr with rfl | rfl
  · exact ⟨(0xFF01, 0xFF60), by decide, h1, h2⟩
  · exact ⟨(0xFFE0, 0xFFE6), by decide, h1, h2⟩

set_option maxHeartbeats 2000000 in
/-- Claim C9: `categorizeCharacter` never returns `FULL_WIDTH`, because
both full-width ranges are contained in the wide-character ranges and
the wide check precedes the full-width check. -/
theorem categorizeCharacter_never_full_width (p : Nat) (char : List Nat) :
    categorizeCharacter p char ≠ CharacterCategory.FULL_WIDTH := by
  unfold categorizeCharacter
  split_ifs
  all_goals first
    | exact absurd (isFullWidth_imp_isWideChar ‹isFullWidth p = true›)
        ‹¬isWideChar p = true›
    | decide

/-- Claim C7: `sanitizeString` with all-default options is stable on its
own output: under defaults only categories absent after the first pass
are dropped or replaced, and every remaining unit (including surrogate
pairs newly formed by the removal of interleaved dropped units) is
emitted unchanged by the second pass. -/
theorem sanitizeString_default_idempotent (env : Option (List Nat → List Nat))
    (s : List Nat) :
    sanitizeString env (sanitizeString env s {}) {} = sanitizeString env s {} := by
  rw [sanitizeString_default env s,
    sanitizeString_default env (processCharacters s {})]
  exact (processCharacters_default _).trans
    (join_map_emitDefault_id (processCharacters s {}).length _ le_rfl
      (processCharacters_default_good s))

/-- Counterexample to claim C2: the consecutive-whitespace counter does
not reset to 0 on every non-whitespace output.  A zero-width character
preserved by `preserveZeroWidth` is emitted (non-whitespace output) yet
leaves the counter unchanged; with limit 1, the space following it is
dropped even though the claim's reset rule would keep it. -/
theorem processCharacter_counter_reset_counterexample :
    (¬ (∀ (opts : SanitizerOptions) (u : List Nat) (cp count : Nat),
        (processCharacter u cp count opts).1 ≠ [] →
        categorizeCharacter cp u ≠ .WHITESPACE →
        categorizeCharacter cp u ≠ .NEWLINE →
        categorizeCharacter cp u ≠ .TAB →
        (processCharacter u cp count opts).2 = 0)) ∧
    sanitizeString none [0x20, 0x200B, 0x20]
      { preserveZeroWidth := true, maxConsecutiveWhitespace := some 1 } =
      [0x20, 0x200B] := by
  constructor
  · intro hclaim
    have h := hclaim { preserveZeroWidth := true, maxConsecutiveWhitespace := some 1 }
        [0x200B] 0x200B 1 (by decide) (by decide) (by decide) (by decide)
    exact absurd h (by decide)
  · decide

/-- Claim C2 (amended): during sanitization, a WHITESPACE character, and
the configured replacement for a NEWLINE or TAB, is emitted if and only
if `maxConsecutiveWhitespace` is 0/unset or the counter before that
character is strictly below the limit; after a plain whitespace
character the counter increments by 1, after a newline or tab it becomes
1, and it resets to 0 on non-whitespace output EXCEPT that emitted
zero-width or directional characters (under the preserve flags) and
replaced invalid markers leave the counter unchanged; in particular
"Hello" + four spaces + "World" with limit 2 sanitizes to "Hello" + two
spaces + "World". -/
theorem processCharacter_whitespace_limit_amended :
    (∀ (opts : SanitizerOptions) (u : List Nat) (cp count : Nat),
      opts.customReplacements cp = none →
      (categorizeCharacter cp u = .WHITESPACE →
        processCharacter u cp count opts =
          (if opts.maxConsecutiveWhitespace.getD 0 = 0 ∨
              count < opts.maxConsecutiveWhitespace.getD 0 then u else [],
            count + 1)) ∧
      (categorizeCharacter cp u = .NEWLINE →
        processCharacter u cp count opts =
          (if opts.maxConsecutiveWhitespace.getD 0 = 0 ∨
              count < opts.maxConsecutiveWhitespace.getD 0 then
              opts.replaceNewLine.getD [0x0A]
            else [], 1)) ∧
      (categorizeCharacter cp u = .TAB →
        processCharacter u cp count opts =
          (if opts.maxConsecutiveWhitespace.getD 0 = 0 ∨
              count < opts.maxConsecutiveWhitespace.getD 0 then
              opts.replaceTab.getD [0x20, 0x20, 0x20, 0x20]
            else [], 1)) ∧
      (categorizeCharacter cp u = .ZERO_WIDTH →
        processCharacter u cp count opts =
          (if opts.preserveZeroWidth then u else [], count)) ∧
      (categorizeCharacter cp u = .DIRECTIONAL_MARK →
        processCharacter u cp count opts =
          (if opts.preserveDirectional then u else [], count)) ∧
      (categorizeCharacter cp u = .INVALID →
        processCharacter u cp count opts = (opts.replaceInvalidWith.getD [], count)) ∧
      (categorizeCharacter cp u = .CONTROL →
        processCharacter u cp count opts =
          if opts.preserveControlChars then (u, 0) else ([], count)) ∧
      ((categorizeCharacter cp u = .PRINTABLE ∨ categorizeCharacter cp u = .FORMATTING ∨
        categorizeCharacter cp u = .EMOJI ∨ categorizeCharacter cp u = .WIDE_CHAR ∨
        categorizeCharacter cp u = .FULL_WIDTH ∨
        categorizeCharacter cp u = .AMBIGUOUS_WIDTH) →
        processCharacter u cp count opts = (u, 0))) ∧
    sanitizeString none
      [0x48, 0x65, 0x6C, 0x6C, 0x6F, 0x20, 0x20, 0x20, 0x20, 0x57, 0x6F, 0x72, 0x6C, 0x64]
      { maxConsecutiveWhitespace := some 2 } =
      [0x48, 0x65, 0x6C, 0x6C, 0x6F, 0x20, 0x20, 0x57, 0x6F, 0x72, 0x6C, 0x64] := by
  constructor
  · intro opts u cp count hcustom
    refine ⟨?_, ?_, ?_, ?_, ?_, ?_, ?_, ?_⟩
    · intro hcat
      simp [processCharacter, hcustom, hcat, handleWhitespaceLimit]
    · intro hcat
      simp [processCharacter, hcustom, hcat, handleWhitespaceLimit]
    · intro hcat
      simp [processCharacter, hcustom, hcat, handleWhitespaceLimit]
    · intro hcat
      simp [processCharacter, hcustom, hcat]
    · intro hcat
      simp [processCharacter, hcustom, hcat]
    · intro hcat
      simp [processCharacter, hcustom, hcat]
    · intro hcat
      simp [processCharacter, hcustom, hcat]
    · intro hcat
      rcases hcat with h | h | h | h | h | h <;>
        simp [processCharacter, hcustom, h]
  · decide

/-- Witness for the amended claim C2 at a concrete input: a space under
limit 2 with counter 0 is emitted and the counter becomes 1. -/
theorem processCharacter_whitespace_limit_amended_witness :
    processCharacter [0x20] 0x20 0 { maxConsecutiveWhitespace := some 2 } =
      ([0x20], 1) := by
  have h := (processCharacter_whitespace_limit_amended.1
      { maxConsecutiveWhitespace := some 2 } [0x20] 0x20 0 rfl).1 (by decide)
  exact h.trans (by decide)

/-- Counterexample to claim C4: `stripVTControlSequences` is not defined
purely by the pattern; when the host exposes
`util.stripVTControlCharacters` through `globalThis.require`, that
primitive's result is returned, whatever its semantics. -/
theorem stripVTControlSequences_platform_counterexample :
    ¬ (∀ (env : Option (List Nat → List Nat)) (input : List Nat),
        stripVTControlSequences env input = stripVTPattern input) := by
  intro hclaim
  have h := hclaim (some fun _ => []) [0x48]
  exact absurd h.symm (by decide)

/-- Claim C4 (amended): when no platform control-stripping primitive is
available, `stripVTControlSequences` returns its input with exactly the
substrings matching the escape pattern removed; in particular the
red-"Hello"-reset example strips to "Hello".  When the platform
primitive is available, its result is returned instead. -/
theorem stripVTControlSequences_pattern_amended :
    (∀ input : List Nat, stripVTControlSequences none input = stripVTPattern input) ∧
    stripVTControlSequences none
      ([0x1B, 0x5B, 0x33, 0x31, 0x6D] ++ [0x48, 0x65, 0x6C, 0x6C, 0x6F] ++
        [0x1B, 0x5B, 0x30, 0x6D]) = [0x48, 0x65, 0x6C, 0x6C, 0x6F] ∧
    (∀ (f : List Nat → List Nat) (input : List Nat),
      stripVTControlSequences (some f) input = f input) :=
  ⟨fun _ => rfl, by decide, fun _ _ => rfl⟩

theorem processCharsGo_maxLength (opts : SanitizerOptions) (x : Option Nat) :
    ∀ (units : List (List Nat)) (count : Nat),
      processCharsGo { opts with maxLength := x } units count =
        processCharsGo opts units count := by
  intro units
  induction units with
  | nil => intro count; rfl
  | cons u rest ih =>
    intro count
    unfold processCharsGo
    cases h : codePointAt u with
    | none =>
      simp only [h]
      exact ih count
    | some cp =>
      simp only [h]
      have hc : processCharacter u cp count { opts with maxLength := x } =
          processCharacter u cp count opts := rfl
      rw [hc, ih]

theorem processCharacters_maxLength (opts : SanitizerOptions) (x : Option Nat)
    (t : List Nat) :
    processCharacters t { opts with maxLength := x } = processCharacters t opts :=
  processCharsGo_maxLength opts x (decode t) 0

/-- Counterexample to claim C3: `maxLength` counts UTF-16 code units of
the host string, not decoded code-point units.  The sanitized output for
"a" followed by U+1D11E is two code-point units, within the limit 2, yet
it is truncated, and the hard cut splits the surrogate pair, leaving a
lone high surrogate (a fragment of a multi-unit character). -/
theorem sanitizeString_maxLength_codepoint_counterexample :
    (decode (sanitizeString none [0x61, 0xD834, 0xDD1E] {})).length ≤ 2 ∧
    sanitizeString none [0x61, 0xD834, 0xDD1E] { maxLength := some 2 } =
      [0x61, 0xD834] ∧
    sanitizeString none [0x61, 0xD834, 0xDD1E] { maxLength := some 2 } ≠
      sanitizeString none [0x61, 0xD834, 0xDD1E] {} := by decide

/-- Claim C3 (amended): for every input and options, `sanitizeString`
with a positive `maxLength` equals the `maxLength`-free result
hard-truncated to exactly `maxLength` UTF-16 code units whenever it is
longer (no suffix added), and is that result unchanged otherwise; the
count is in code units of the host string representation, so the cut can
split a surrogate pair. -/
theorem sanitizeString_maxLength_utf16_amended
    (env : Option (List Nat → List Nat)) (input : List Nat)
    (opts : SanitizerOptions) :
    sanitizeString env input opts =
      (let r := sanitizeString env input { opts with maxLength := none }
       match opts.maxLength with
       | some m => if 0 < m ∧ m < r.length then r.take m else r
       | none => r) := by
  unfold sanitizeString
  by_cases hinput : input = []
  · rw [if_pos hinput, if_pos hinput]
    cases opts.maxLength with
    | none => rfl
    | some m => simp
  · rw [if_neg hinput, if_neg hinput]
    dsimp only
    rw [processCharacters_maxLength opts none]

theorem decode_map_singleton {l : List Nat}
    (h : ∀ c ∈ l, isHighSurrogate c = false) :
    decode l = l.map fun c => [c] := by
  induction l with
  | nil => rfl
  | cons c rest ih =>
    rw [decode_cons_nothigh rest (h c (List.mem_cons_self c _)),
      ih fun x hx => h x (List.mem_cons_of_mem c hx)]
    rfl

theorem processCharsGo_cons_singleton (opts : SanitizerOptions) (c : Nat)
    (units : List (List Nat)) (count : Nat) :
    processCharsGo opts ([c] :: units) count =
      (processCharacter [c] c count opts).1 ++
        processCharsGo opts units (processCharacter [c] c count opts).2 := by
  conv_lhs => rw [processCharsGo, codePointAt_singleton]

/-- Claim C10: with a whitespace limit of at least 2 and an input of only
tab and newline characters (none covered by `customReplacements`), every
unit of the input emits its configured replacement: the counter is set
to 1 (not incremented) after each tab or newline, so it never reaches
the limit and nothing is dropped. -/
theorem processCharacters_tab_newline_run_kept
    (opts : SanitizerOptions) (m : Nat) (input : List Nat)
    (hm : opts.maxConsecutiveWhitespace = some m) (hm2 : 2 ≤ m)
    (hchars : ∀ c ∈ input, c = 0x09 ∨ c = 0x0A ∨ c = 0x0D)
    (hcustom : ∀ c ∈ input, opts.customReplacements c = none) :
    processCharacters input opts =
      input.foldr (fun c acc =>
        (if c = 0x09 then opts.replaceTab.getD [0x20, 0x20, 0x20, 0x20]
         else opts.replaceNewLine.getD [0x0A]) ++ acc) [] := by
  have hnosur : ∀ c ∈ input, isHighSurrogate c = false := by
    intro c hc
    rcases hchars c hc with rfl | rfl | rfl <;> decide
  unfold processCharacters
  rw [decode_map_singleton hnosur]
  suffices haux : ∀ (l : List Nat) (count : Nat), count ≤ 1 →
      (∀ c ∈ l, c = 0x09 ∨ c = 0x0A ∨ c = 0x0D) →
      (∀ c ∈ l, opts.customReplacements c = none) →
      processCharsGo opts (l.map fun c => [c]) count =
        l.foldr (fun c acc =>
          (if c = 0x09 then opts.replaceTab.getD [0x20, 0x20, 0x20, 0x20]
           else opts.replaceNewLine.getD [0x0A]) ++ acc) [] by
    exact haux input 0 (by omega) hchars hcustom
  intro l
  induction l with
  | nil => intro count _ _ _; rfl
  | cons c rest ih =>
    intro count hcount hcs hcust
    simp only [List.map_cons, List.foldr_cons]
    rw [processCharsGo_cons_singleton]
    have hcustc : opts.customReplacements c = none :=
      hcust c (List.mem_cons_self c _)
    have hltm : count < m := by omega
    have hrest := ih 1 (by omega)
      (fun x hx => hcs x (List.mem_cons_of_mem c hx))
      (fun x hx => hcust x (List.mem_cons_of_mem c hx))
    rcases hcs c (List.mem_cons_self c _) with rfl | rfl | rfl
    · have hcat : categorizeCharacter 0x09 [0x09] = .TAB := by decide
      simp [processCharacter, hcustc, hcat, handleWhitespaceLimit, hm, hltm, hrest]
    · have hcat : categorizeCharacter 0x0A [0x0A] = .NEWLINE := by decide
      simp [processCharacter, hcustc, hcat, handleWhitespaceLimit, hm, hltm, hrest]
    · have hcat : categorizeCharacter 0x0D [0x0D] = .NEWLINE := by decide
      simp [processCharacter, hcustc, hcat, handleWhitespaceLimit, hm, hltm, hrest]

/-- Witness for claim C10: tab, LF, LF, CR under limit 2 all emit their
replacements (four-space tab default and newline default). -/
theorem processCharacters_tab_newline_run_kept_witness :
    processCharacters [0x09, 0x0A, 0x0A, 0x0D]
      { maxConsecutiveWhitespace := some 2 } =
      [0x20, 0x20, 0x20, 0x20, 0x0A, 0x0A, 0x0A] := by
  have h := processCharacters_tab_newline_run_kept
    { maxConsecutiveWhitespace := some 2 } 2 [0x09, 0x0A, 0x0A, 0x0D]
    rfl (by omega) (by decide) (by intro c _; rfl)
  exact h.trans (by decide)

/-- UTF-16 encoding of a single code point (the single character the
claim quantifies over). -/
def encodeChar (cp : Nat) : List Nat :=
  if cp < 0x10000 then [cp]
  else [0xD800 + (cp - 0x10000) / 0x400, 0xDC00 + (cp - 0x10000) % 0x400]

theorem codePointAt_encodeChar {cp : Nat} (h : cp ≤ 0x10FFFF) :
    codePointAt (encodeChar cp) = some cp := by
  unfold encodeChar
  by_cases h1 : cp < 0x10000
  · rw [if_pos h1, codePointAt_singleton]
  · rw [if_neg h1]
    have hh : isHighSurrogate (0xD800 + (cp - 0x10000) / 0x400) = true := by
      simp only [isHighSurrogate, decide_eq_true_eq]
      omega
    have hl : isLowSurrogate (0xDC00 + (cp - 0x10000) % 0x400) = true := by
      simp only [isLowSurrogate, decide_eq_true_eq]
      omega
    rw [codePointAt_pair hh hl]
    unfold combineSurrogates
    simp only [Option.some.injEq]
    omega

theorem isEmoji_lb {cp : Nat} (h : isEmoji cp = true) : 0x1F300 ≤ cp :=
  le_inRanges_of_all (by decide) h

theorem isEmoji_ub {cp : Nat} (h : isEmoji cp = true) : cp ≤ 0x1FAFF :=
  inRanges_le_of_all (by decide) h

theorem isWideChar_ub {cp : Nat} (h : isWideChar cp = true) : cp ≤ 0xFFE6 :=
  inRanges_le_of_all (by decide) h

theorem isFullWidth_ub {cp : Nat} (h : isFullWidth cp = true) : cp ≤ 0xFFE6 :=
  inRanges_le_of_all (by decide) h

theorem isEmoji_eq_false_of_le {cp : Nat} (h : cp ≤ 0xFFE6) :
    isEmoji cp = false := by
  cases he : isEmoji cp with
  | false => rfl
  | true => exact absurd (isEmoji_lb he) (by omega)

/-- Claim C6: `getCharWidth` follows the priority order emoji,
full-width, wide, ambiguous, zero-width, control, regular on the leading
code point of the character, with defaults 2, 2, 2, 1, 0, 0, 1;
consequently under default options every zero-width or control character
has width 0 and every emoji, wide or full-width character has width 2. -/
theorem getCharWidth_priority_and_defaults :
    (∀ (char : List Nat) (cp : Nat) (opts : SanitizerOptions),
      codePointAt char = some cp →
      getCharWidth char opts =
        (if isEmoji cp then opts.emojiWidth.getD 2
         else if isFullWidth cp then opts.fullWidthWidth.getD 2
         else if isWideChar cp then opts.wideWidth.getD 2
         else if isAmbiguousWidth cp then opts.ambiguousWidth.getD 1
         else if isZeroWidth cp then 0
         else if isControlCharacter cp then 0
         else 1)) ∧
    (∀ cp : Nat, isZeroWidth cp = true ∨ isControlCharacter cp = true →
      getCharWidth (encodeChar cp) {} = 0) ∧
    (∀ cp : Nat, isEmoji cp = true ∨ isWideChar cp = true ∨ isFullWidth cp = true →
      getCharWidth (encodeChar cp) {} = 2) := by
  refine ⟨?_, ?_, ?_⟩
  · intro char cp opts h
    unfold getCharWidth
    rw [h]
  · intro cp hcp
    rcases hcp with hzw | hctl
    · have : cp ∈ ZERO_WIDTH_CODE_POINTS := by
        simpa [isZeroWidth] using hzw
      simp only [ZERO_WIDTH_CODE_POINTS, List.mem_cons, List.not_mem_nil,
        or_false] at this
      rcases this with rfl | rfl | rfl | rfl <;> decide
    · have hb : cp ≤ 0x1F ∨ (0x7F ≤ cp ∧ cp ≤ 0x9F) := by
        simpa [isControlCharacter] using hctl
      have hle : cp ≤ 0x9F := by omega
      have he : isEmoji cp = false :=
        inRanges_eq_false_of_avoid (by decide) (Nat.zero_le cp) hle
      have hf : isFullWidth cp = false :=
        inRanges_eq_false_of_avoid (by decide) (Nat.zero_le cp) hle
      have hw : isWideChar cp = false :=
        inRanges_eq_false_of_avoid (by decide) (Nat.zero_le cp) hle
      have ha : isAmbiguousWidth cp = false :=
        inRanges_eq_false_of_avoid (by decide) (Nat.zero_le cp) hle
      have hz : isZeroWidth cp = false :=
        mem_decide_eq_false_of_avoid (by decide) (Nat.zero_le cp) hle
      unfold getCharWidth
      rw [show encodeChar cp = [cp] from by unfold encodeChar; rw [if_pos (by omega)],
        codePointAt_singleton]
      simp [he, hf, hw, ha, hz, hctl]
  · intro cp h3
    unfold getCharWidth
    rcases h3 with hemoji | hwide | hfw
    · rw [codePointAt_encodeChar (by have := isEmoji_ub hemoji; omega)]
      simp [hemoji]
    · have hub := isWideChar_ub hwide
      have he := isEmoji_eq_false_of_le hub
      rw [codePointAt_encodeChar (by omega)]
      by_cases hfw : isFullWidth cp = true <;> simp [he, hfw, hwide]
    · have hub := isFullWidth_ub hfw
      have he := isEmoji_eq_false_of_le hub
      rw [codePointAt_encodeChar (by omega)]
      simp [he, hfw]

/-- Witness for claim C6 at concrete inputs: a regular letter, the
zero-width space and an emoji. -/
theorem getCharWidth_priority_and_defaults_witness :
    getCharWidth [0x41] {} = 1 ∧ getCharWidth [0x200B] {} = 0 ∧
      getCharWidth (encodeChar 0x1F600) {} = 2 := by
  refine ⟨?_, ?_, ?_⟩
  · exact (getCharWidth_priority_and_defaults.1 [0x41] 0x41 {}
      (by decide)).trans (by decide)
  · exact getCharWidth_priority_and_defaults.2.1 0x200B (Or.inl (by decide))
  · exact getCharWidth_priority_and_defaults.2.2 0x1F600 (Or.inl (by decide))

/-- Claim C5: `getStringWidth` sanitizes first exactly when
`stripVTControlSequences` or `maxConsecutiveWhitespace` is configured
(truthy), then sums per-character widths with the `fast-string-width`
category-to-width mapping; the converted options default `tabWidth` to
8, `ansiWidth` and `controlWidth` to 0 and the category widths to the
`charWidth` defaults; escape sequences contribute 0 columns by default,
and "Hello 世界!" measures 11 columns (CJK ideographs count 2, ASCII
1). -/
theorem getStringWidth_sanitize_then_sum :
    (∀ (env : Option (List Nat → List Nat)) (str : List Nat)
        (opts : SanitizerOptions),
      getStringWidth env str opts =
        fastStringWidth
          (if opts.stripVTControlSequences = true ∨
              opts.maxConsecutiveWhitespace.getD 0 ≠ 0 then
            sanitizeString env str opts
          else str)
          (convertToFastStringWidthOptions opts)) ∧
    convertToFastStringWidthOptions {} =
      { ansiWidth := 0, controlWidth := 0, tabWidth := 8, ambiguousWidth := 1,
        emojiWidth := 2, fullWidthWidth := 2, regularWidth := 1, wideWidth := 2 } ∧
    getStringWidth none
      [0x48, 0x65, 0x6C, 0x6C, 0x6F, 0x20, 0x4E16, 0x754C, 0x21] {} = 11 ∧
    getStringWidth none
      ([0x1B, 0x5B, 0x33, 0x31, 0x6D] ++ [0x48, 0x65, 0x6C, 0x6C, 0x6F] ++
        [0x1B, 0x5B, 0x30, 0x6D]) {} = 5 :=
  ⟨fun _ _ _ => rfl, by decide, by decide, by decide⟩

/-- Collect the code units of a pending ANSI escape sequence: the units
after an ESC, up to and including the terminating `m` unit; `none` when
the sequence is unterminated. -/
def takeAnsiSeq : List (List Nat) → Option (List Nat × List (List Nat))
  | [] => none
  | u :: rest =>
    if u = [0x6D] then some (u, rest)
    else
      match takeAnsiSeq rest with
      | some (seq, rem) => some (u ++ seq, rem)
      | none => none

theorem takeAnsiSeq_cons_m (rest : List (List Nat)) :
    takeAnsiSeq ([0x6D] :: rest) = some ([0x6D], rest) := by
  simp [takeAnsiSeq]

theorem takeAnsiSeq_cons_notm {u : List Nat} (h : u ≠ [0x6D])
    (rest : List (List Nat)) :
    takeAnsiSeq (u :: rest) =
      match takeAnsiSeq rest with
      | some (seq, rem) => some (u ++ seq, rem)
      | none => none := by
  simp [takeAnsiSeq, h]

theorem takeAnsiSeq_length :
    ∀ {l : List (List Nat)} {seq : List Nat} {rem : List (List Nat)},
      takeAnsiSeq l = some (seq, rem) → rem.length < l.length := by
  intro l
  induction l with
  | nil => intro seq rem h; simp [takeAnsiSeq] at h
  | cons u rest ih =>
    intro seq rem h
    by_cases hu : u = [0x6D]
    · subst hu
      rw [takeAnsiSeq_cons_m] at h
      simp only [Option.some.injEq, Prod.mk.injEq] at h
      rw [← h.2]
      simp
    · rw [takeAnsiSeq_cons_notm hu] at h
      cases htail : takeAnsiSeq rest with
      | none => rw [htail] at h; exact absurd h (by simp)
      | some pr =>
        obtain ⟨seq2, rem2⟩ := pr
        rw [htail] at h
        simp only [Option.some.injEq, Prod.mk.injEq] at h
        have := ih htail
        rw [← h.2]
        simp only [List.length_cons]
        omega

/-- The walk as the claim words it: an embedded ANSI escape sequence
(ESC up to and including the next `m` unit) is copied through verbatim
without counting toward the visible budget; visible characters are kept
while the budget lasts; an unterminated trailing escape sequence is
dropped.  Fuel-bounded like `stripVTPatternAux`: every step consumes at
least one unit, so fuel equal to the number of units (as supplied by
`truncateSpecWalk`) is never exhausted. -/
def truncateSpecWalkAux : Nat → List (List Nat) → Nat → List Nat
  | 0, _, _ => []
  | _ + 1, [], _ => []
  | fuel + 1, u :: rest, budget =>
    if u = [0x1B] then
      match takeAnsiSeq rest with
      | some (seq, rem) => [0x1B] ++ seq ++ truncateSpecWalkAux fuel rem budget
      | none => []
    else if budget = 0 then []
    else u ++ truncateSpecWalkAux fuel rest (budget - 1)

/-- Entry point of the claim-side walk. -/
def truncateSpecWalk (units : List (List Nat)) (budget : Nat) : List Nat :=
  truncateSpecWalkAux units.length units budget

theorem truncateWalk_cons_inAnsi_m (rest : List (List Nat)) (v : Nat)
    (buf : List Nat) (b : Nat) :
    truncateWalk ([0x6D] :: rest) v true buf b =
      (buf ++ [0x6D]) ++ truncateWalk rest v false [] b := by
  simp [truncateWalk]

theorem truncateWalk_cons_inAnsi_notm {u : List Nat} (h : u ≠ [0x6D])
    (rest : List (List Nat)) (v : Nat) (buf : List Nat) (b : Nat) :
    truncateWalk (u :: rest) v true buf b =
      truncateWalk rest v true (buf ++ u) b := by
  simp [truncateWalk, h]

theorem truncateWalk_inAnsi :
    ∀ (units : List (List Nat)) (v : Nat) (buf : List Nat) (b : Nat),
      truncateWalk units v true buf b =
        match takeAnsiSeq units with
        | some (seq, rem) => buf ++ seq ++ truncateWalk rem v false [] b
        | none => [] := by
  intro units
  induction units with
  | nil => intro v buf b; simp [truncateWalk, takeAnsiSeq]
  | cons u rest ih =>
    intro v buf b
    by_cases hu : u = [0x6D]
    · subst hu
      rw [truncateWalk_cons_inAnsi_m, takeAnsiSeq_cons_m]
    · rw [truncateWalk_cons_inAnsi_notm hu, ih, takeAnsiSeq_cons_notm hu]
      cases htail : takeAnsiSeq rest with
      | none => rfl
      | some pr =>
        obtain ⟨seq, rem⟩ := pr
        simp [List.append_assoc]

theorem truncateWalk_inAnsi_some {units rem : List (List Nat)} {seq : List Nat}
    (h : takeAnsiSeq units = some (seq, rem)) (v : Nat) (buf : List Nat) (b : Nat) :
    truncateWalk units v true buf b = buf ++ seq ++ truncateWalk rem v false [] b := by
  rw [truncateWalk_inAnsi, h]

theorem truncateWalk_inAnsi_none {units : List (List Nat)}
    (h : takeAnsiSeq units = none) (v : Nat) (buf : List Nat) (b : Nat) :
    truncateWalk units v true buf b = [] := by
  rw [truncateWalk_inAnsi, h]

theorem truncateWalk_spec :
    ∀ (n : Nat) (units : List (List Nat)), units.length ≤ n →
      ∀ (fuel : Nat), units.length ≤ fuel → ∀ (v b : Nat),
        truncateWalk units v false [] b = truncateSpecWalkAux fuel units (b - v) := by
  intro n
  induction n with
  | zero =>
    intro units h fuel _ v b
    rw [List.length_eq_zero.mp (Nat.le_zero.mp h)]
    cases fuel <;> simp [truncateWalk, truncateSpecWalkAux]
  | succ n ih =>
    intro units hlen fuel hfuel v b
    match units, fuel with
    | [], 0 => simp [truncateWalk, truncateSpecWalkAux]
    | [], fuel + 1 => simp [truncateWalk, truncateSpecWalkAux]
    | u :: rest, fuel + 1 =>
      by_cases hesc : u = [0x1B]
      · subst hesc
        rw [show truncateWalk ([0x1B] :: rest) v false [] b =
            truncateWalk rest v true [0x1B] b from by simp [truncateWalk]]
        cases htail : takeAnsiSeq rest with
        | none =>
          rw [truncateWalk_inAnsi_none htail]
          simp [truncateSpecWalkAux, htail]
        | some pr =>
          obtain ⟨seq, rem⟩ := pr
          have hlt := takeAnsiSeq_length htail
          rw [truncateWalk_inAnsi_some htail,
            ih rem (by simp at hlen ⊢; omega) fuel (by simp at hfuel ⊢; omega) v b]
          rw [show truncateSpecWalkAux (fuel + 1) ([0x1B] :: rest) (b - v) =
              [0x1B] ++ seq ++ truncateSpecWalkAux fuel rem (b - v) from by
                simp [truncateSpecWalkAux, htail]]
      · by_cases hv : v < b
        · rw [show truncateWalk (u :: rest) v false [] b =
              u ++ truncateWalk rest (v + 1) false [] b from by
                simp [truncateWalk, hesc, hv],
            ih rest (by simp at hlen ⊢; omega) fuel (by simp at hfuel ⊢; omega)
              (v + 1) b]
          have hbv : b - v ≠ 0 := by omega
          rw [show truncateSpecWalkAux (fuel + 1) (u :: rest) (b - v) =
              u ++ truncateSpecWalkAux fuel rest (b - v - 1) from by
                simp [truncateSpecWalkAux, hesc, hbv]]
          have harith : b - (v + 1) = b - v - 1 := by omega
          rw [harith]
        · rw [show truncateWalk (u :: rest) v false [] b = [] from by
              simp [truncateWalk, hesc, hv]]
          have hbv : b - v = 0 := by omega
          rw [show truncateSpecWalkAux (fuel + 1) (u :: rest) (b - v) = [] from by
              simp [truncateSpecWalkAux, hesc, hbv]]

/-- Claim C8: `truncate` returns the text unchanged whenever its
ANSI-stripped length (per the supplied platform strip primitive) is at
most `maxLength`; otherwise it walks the decoded units copying embedded
ANSI escape sequences through verbatim without counting them toward the
visible budget, keeps visible characters until
`maxLength - length(suffix)` have been kept, and returns the kept prefix
with the suffix appended. -/
theorem truncate_guard_and_walk (strip : List Nat → List Nat)
    (text : List Nat) (maxLength : Nat) (suffix : List Nat) :
    truncate strip text maxLength suffix =
      if visibleLength strip text ≤ maxLength then text
      else truncateSpecWalk (decode text) (maxLength - suffix.length) ++ suffix := by
  unfold truncate visibleLength truncateSpecWalk
  split
  · rfl
  · rw [truncateWalk_spec (decode text).length (decode text) le_rfl
      (decode text).length le_rfl 0 (maxLength - suffix.length), Nat.sub_zero]
